import Mathlib

/-
Verification of the SAR4CET change-detection core
(`sar4cet/change_detection/methods.py` and `sar4cet/utils/conversions.py`).

The three test strategies operate elementwise on a time-ordered stack of
two-dimensional intensity grids.  Grids are embedded as functions from a
(row, column) pair to a real number; the time stack is a list of grids.
Machine floating point is embedded as exact real arithmetic, and the
`uint8` output arrays (`first_change`, `change_frequency`) are embedded as
naturals reduced modulo 256 at every write, matching NumPy modular
integer semantics.
-/

set_option maxRecDepth 8192

namespace SAR4CET

open scoped Classical

/-- A two-dimensional grid of values, indexed by row and column. -/
def Grid (α : Type) : Type := ℕ → ℕ → α

/-- The all-zero real grid (`np.zeros`). -/
def gzero : Grid ℝ := fun _ _ => 0

/-- The three output maps produced by every strategy.  In the source,
`first_change` and `change_frequency` are `np.uint8` arrays (hence values
mod 256) and `change_magnitude` is `np.float32` (embedded as real). -/
structure ChangeMaps where
  first_change : Grid ℕ
  change_frequency : Grid ℕ
  change_magnitude : Grid ℝ

/-- The initial output maps: `np.zeros` for all three arrays. -/
def initMaps : ChangeMaps :=
  { first_change := fun _ _ => 0
    change_frequency := fun _ _ => 0
    change_magnitude := fun _ _ => 0 }

/-- The per-pixel view of the three output maps. -/
structure PixelState where
  fc : ℕ
  freq : ℕ
  mag : ℝ

/-- Read one pixel of the three output maps. -/
def pixelOf (maps : ChangeMaps) (r c : ℕ) : PixelState :=
  { fc := maps.first_change r c
    freq := maps.change_frequency r c
    mag := maps.change_magnitude r c }

/-- One aggregation step at one pixel, translated from the loop body shared
by the three strategies (methods.py lines 112-120, 161-170, 214-222):
`mask = (first_change == 0) & changes; first_change[mask] = i`,
`change_frequency[changes] += 1`,
`change_magnitude[changes] = np.maximum(change_magnitude[changes], stat[changes])`.
Writes into the `uint8` arrays reduce modulo 256. -/
noncomputable def pixelStep (s : PixelState) (i : ℕ) (changed : Prop) (stat : ℝ) : PixelState :=
  { fc := if s.fc = 0 ∧ changed then i % 256 else s.fc
    freq := if changed then (s.freq + 1) % 256 else s.freq
    mag := if changed then max s.mag stat else s.mag }

/-- One aggregation step on the whole maps, elementwise (same source lines as
`pixelStep`; the NumPy operations are all elementwise over the grid). -/
noncomputable def update_maps (maps : ChangeMaps) (i : ℕ) (changes : Grid Prop)
    (stat : Grid ℝ) : ChangeMaps :=
  { first_change := fun r c =>
      if maps.first_change r c = 0 ∧ changes r c then i % 256 else maps.first_change r c
    change_frequency := fun r c =>
      if changes r c then (maps.change_frequency r c + 1) % 256 else maps.change_frequency r c
    change_magnitude := fun r c =>
      if changes r c then max (maps.change_magnitude r c) (stat r c)
      else maps.change_magnitude r c }

/-- The per-pixel aggregation fold over a list of step indices, starting
from a given state. -/
noncomputable def pixelFoldFrom (s : PixelState) (steps : List ℕ) (flag : ℕ → Prop)
    (mag : ℕ → ℝ) : PixelState :=
  steps.foldl (fun t i => pixelStep t i (flag i) (mag i)) s

/-- The per-pixel aggregation fold starting from the all-zero state. -/
noncomputable def pixelFold (steps : List ℕ) (flag : ℕ → Prop) (mag : ℕ → ℝ) : PixelState :=
  pixelFoldFrom ⟨0, 0, 0⟩ steps flag mag

/-- Number of looks, hard-coded in the source:
`n_looks = 5  (assumed to be 5 for Sentinel-1 GRD)`. -/
def n_looks : ℕ := 5

/-- Modelled from the spec: the source calls `scipy.stats.chi2.ppf(p, 2)`,
the quantile of the chi-squared distribution with 2 degrees of freedom,
whose survival function is `exp (-x/2)`; its quantile at `p` is therefore
exactly `-2 * ln (1 - p)`. -/
noncomputable def chi2_ppf_df2 (p : ℝ) : ℝ := -2 * Real.log (1 - p)

/-- Elementwise mean over a list of grids (`np.mean(subset, axis=0)`). -/
noncomputable def gridMean (l : List (Grid ℝ)) : Grid ℝ :=
  fun r c => ((l.map (fun g => g r c)).sum) / (l.length : ℝ)

/-- `mean_all` at step `i`: mean of `subset = image_stack[:i+1]` (line 98). -/
noncomputable def omnibus_mean_all (stack : List (Grid ℝ)) (i : ℕ) : Grid ℝ :=
  gridMean (stack.take (i + 1))

/-- `mean_prev` at step `i`: mean of `subset[:-1]` (line 101). -/
noncomputable def omnibus_mean_prev (stack : List (Grid ℝ)) (i : ℕ) : Grid ℝ :=
  gridMean ((stack.take (i + 1)).dropLast)

/-- The omnibus test statistic at step `i`:
`test_statistic = -2 * n_looks * np.log(mean_all / mean_prev)` (lines 104-107).
No epsilon is added to the denominator in the source. -/
noncomputable def omnibus_stat (stack : List (Grid ℝ)) (i : ℕ) : Grid ℝ :=
  fun r c =>
    -2 * (n_looks : ℝ) *
      Real.log (omnibus_mean_all stack i r c / omnibus_mean_prev stack i r c)

/-- The omnibus flag at step `i`: `test_statistic > critical_value` where
`critical_value = chi2.ppf(1 - significance, 2)` (lines 90, 110). -/
noncomputable def omnibus_changes (stack : List (Grid ℝ)) (significance : ℝ) (i : ℕ) :
    Grid Prop :=
  fun r c => omnibus_stat stack i r c > chi2_ppf_df2 (1 - significance)

/-- `omnibus_test(image_stack, significance)` (lines 61-126): the loop
`for i in range(1, k)` folding the aggregation updates over the maps. -/
noncomputable def omnibus_test (stack : List (Grid ℝ)) (significance : ℝ) : ChangeMaps :=
  (List.range' 1 (stack.length - 1)).foldl
    (fun maps i =>
      update_maps maps i (omnibus_changes stack significance i) (omnibus_stat stack i))
    initMaps

/-- The additive guard constant `1e-10` used by `ratio_test`,
`difference_test` and `linear_to_db` in the source. -/
noncomputable def guard_eps : ℝ := 1e-10

/-- The ratio-test threshold, hard-coded in the source: `threshold = 1.5`. -/
noncomputable def ratio_threshold : ℝ := 1.5

/-- `ratio = image_stack[i] / (image_stack[i-1] + 1e-10)` (line 156). -/
noncomputable def ratio_grid (stack : List (Grid ℝ)) (i : ℕ) : Grid ℝ :=
  fun r c => stack.getD i gzero r c / (stack.getD (i - 1) gzero r c + guard_eps)

/-- The ratio-test flag at step `i`:
`changes = (ratio > threshold) | (ratio < 1/threshold)` (line 159). -/
noncomputable def ratio_changes (stack : List (Grid ℝ)) (i : ℕ) : Grid Prop :=
  fun r c =>
    ratio_grid stack i r c > ratio_threshold ∨ ratio_grid stack i r c < 1 / ratio_threshold

/-- The ratio-test magnitude: `log_ratio = np.abs(np.log(ratio))` (line 169). -/
noncomputable def ratio_log (stack : List (Grid ℝ)) (i : ℕ) : Grid ℝ :=
  fun r c => |Real.log (ratio_grid stack i r c)|

/-- `ratio_test(image_stack)` (lines 128-176). -/
noncomputable def ratio_test (stack : List (Grid ℝ)) : ChangeMaps :=
  (List.range' 1 (stack.length - 1)).foldl
    (fun maps i => update_maps maps i (ratio_changes stack i) (ratio_log stack i))
    initMaps

/-- The difference-test threshold, hard-coded: `threshold = 3.0` (dB). -/
noncomputable def db_threshold : ℝ := 3.0

/-- `image_stack_db = 10 * np.log10(image_stack + 1e-10)` (line 201), at index `i`. -/
noncomputable def to_db (stack : List (Grid ℝ)) (i : ℕ) : Grid ℝ :=
  fun r c => 10 * Real.logb 10 (stack.getD i gzero r c + guard_eps)

/-- `diff = np.abs(image_stack_db[i] - image_stack_db[i-1])` (line 209). -/
noncomputable def difference_diff (stack : List (Grid ℝ)) (i : ℕ) : Grid ℝ :=
  fun r c => |to_db stack i r c - to_db stack (i - 1) r c|

/-- The difference-test flag: `changes = diff > threshold` (line 212). -/
noncomputable def difference_changes (stack : List (Grid ℝ)) (i : ℕ) : Grid Prop :=
  fun r c => difference_diff stack i r c > db_threshold

/-- `difference_test(image_stack)` (lines 178-228). -/
noncomputable def difference_test (stack : List (Grid ℝ)) : ChangeMaps :=
  (List.range' 1 (stack.length - 1)).foldl
    (fun maps i => update_maps maps i (difference_changes stack i) (difference_diff stack i))
    initMaps

/-- The only error `detect_changes` can raise on an in-memory stack:
`raise ValueError(f"Unknown method: ...")` (line 52). -/
inductive DetectError where
  | unknownMethod (method : String)
  deriving DecidableEq

/-- `detect_changes(images, method, significance)` (lines 6-59), for a stack
already given in memory: it stacks the images and dispatches on the method
string; there is no validation of the stack size or shapes. -/
noncomputable def detect_changes (images : List (Grid ℝ)) (method : String)
    (significance : ℝ) : Except DetectError ChangeMaps :=
  if method = "omnibus" then .ok (omnibus_test images significance)
  else if method = "ratio" then .ok (ratio_test images)
  else if method = "difference" then .ok (difference_test images)
  else .error (.unknownMethod method)

/-- Observable operations of `detect_changes`, in program order. -/
inductive Op where
  | loadImage (idx : ℕ)
  | stackImages
  | runMethod (method : String)
  | raiseUnknown (method : String)
  deriving DecidableEq

/-- The order of operations performed by `detect_changes` (lines 26-52):
when the input is a list of file paths the images are loaded one by one
(lines 30-35), then `np.stack(images, axis=0)` runs unconditionally
(line 42), and only afterwards the method string is dispatched, raising
`ValueError` on an unknown method (line 52). -/
def detect_changes_trace (numImages : ℕ) (fromPaths : Bool) (method : String) : List Op :=
  (if fromPaths then (List.range numImages).map Op.loadImage else [])
    ++ [Op.stackImages]
    ++ (if method = "omnibus" ∨ method = "ratio" ∨ method = "difference" then
          [Op.runMethod method]
        else [Op.raiseUnknown method])

/-- `db_to_linear(db_values) = 10 ** (db_values / 10.0)` (conversions.py line 17). -/
noncomputable def db_to_linear (db_values : ℝ) : ℝ := (10 : ℝ) ^ (db_values / 10)

/-- `linear_to_db(linear_values) = 10.0 * np.log10(linear_values + 1e-10)`
(conversions.py line 34). -/
noncomputable def linear_to_db (linear_values : ℝ) : ℝ :=
  10 * Real.logb 10 (linear_values + guard_eps)

/-- The earliest step of the list satisfying the flag, or 0 when none does. -/
noncomputable def firstFlagged (flag : ℕ → Prop) : List ℕ → ℕ
  | [] => 0
  | i :: is => if flag i then i else firstFlagged flag is

/-- The number of steps of the list satisfying the flag. -/
noncomputable def countFlagged (flag : ℕ → Prop) : List ℕ → ℕ
  | [] => 0
  | i :: is => (if flag i then 1 else 0) + countFlagged flag is

/-- Scenario A grid at time `j`: constant 1.0 except pixel (10, 10),
which becomes 2.5 from step 3 on. -/
noncomputable def gA (j : ℕ) : Grid ℝ :=
  fun r c => if r = 10 ∧ c = 10 ∧ 3 ≤ j then 2.5 else 1

/-- Scenario A stack: five grids, jump of pixel (10, 10) at step 3. -/
noncomputable def scenarioA : List (Grid ℝ) := [gA 0, gA 1, gA 2, gA 3, gA 4]

/-- A constant grid of ones. -/
noncomputable def gJump0 : Grid ℝ := fun _ _ => 1

/-- A grid of ones whose pixel (0, 0) has dropped to 0. -/
noncomputable def gJump1 : Grid ℝ := fun r c => if r = 0 ∧ c = 0 then 0 else 1

/-- Scenario C stack: two grids, pixel (0, 0) jumps discontinuously
(drops from 1 to 0) at step 1; all other pixels constant. -/
noncomputable def jumpStack : List (Grid ℝ) := [gJump0, gJump1]

/-- A stack of 258 constant grids whose value jumps from 1 to 10 at time
index 256, so the only flagged ratio-test step is step 256. -/
noncomputable def stack258 : List (Grid ℝ) :=
  (List.range 258).map (fun j => fun _ _ => if j ≤ 255 then (1 : ℝ) else 10)

/-- A stack of 257 grids alternating between the constants 1 and 10, so
every one of the 256 ratio-test steps is flagged at every pixel. -/
noncomputable def altStack : List (Grid ℝ) :=
  (List.range 257).map (fun j => fun _ _ => if j % 2 = 0 then (1 : ℝ) else 10)

/-- Evaluation of one aggregation step when the pixel is flagged. -/
theorem pixelStep_pos {changed : Prop} (h : changed) (s : PixelState) (i : ℕ) (stat : ℝ) :
    pixelStep s i changed stat =
      { fc := if s.fc = 0 then i % 256 else s.fc
        freq := (s.freq + 1) % 256
        mag := max s.mag stat } := by
  simp [pixelStep, h]

/-- Evaluation of one aggregation step when the pixel is not flagged. -/
theorem pixelStep_neg {changed : Prop} (h : ¬ changed) (s : PixelState) (i : ℕ) (stat : ℝ) :
    pixelStep s i changed stat = s := by
  simp [pixelStep, h]

/-- A congruence rule for one aggregation step. -/
theorem pixelStep_congr {P Q : Prop} {x y : ℝ} (s : PixelState) (i : ℕ)
    (h : P ↔ Q) (hm : x = y) : pixelStep s i P x = pixelStep s i Q y := by
  unfold pixelStep
  rw [hm]
  congr 1
  · exact if_congr (and_congr_right fun _ => h) rfl rfl
  · exact if_congr h rfl rfl
  · exact if_congr h rfl rfl

/-- The grid-level aggregation step, read at one pixel, is the per-pixel step. -/
theorem pixelOf_update (maps : ChangeMaps) (i : ℕ) (changes : Grid Prop) (stat : Grid ℝ)
    (r c : ℕ) :
    pixelOf (update_maps maps i changes stat) r c
      = pixelStep (pixelOf maps r c) i (changes r c) (stat r c) := rfl

/-- The grid-level aggregation fold, read at one pixel, is the per-pixel fold. -/
theorem pixelOf_fold (steps : List ℕ) (ch : ℕ → Grid Prop) (st : ℕ → Grid ℝ)
    (maps : ChangeMaps) (r c : ℕ) :
    pixelOf (steps.foldl (fun m i => update_maps m i (ch i) (st i)) maps) r c
      = pixelFoldFrom (pixelOf maps r c) steps (fun i => ch i r c) (fun i => st i r c) := by
  induction steps generalizing maps with
  | nil => rfl
  | cons a t ih => exact ih (update_maps maps a (ch a) (st a))

/-- The omnibus test at one pixel is the per-pixel fold of its flags. -/
theorem omnibus_pixel (stack : List (Grid ℝ)) (significance : ℝ) (r c : ℕ) :
    pixelOf (omnibus_test stack significance) r c
      = pixelFold (List.range' 1 (stack.length - 1))
          (fun i => omnibus_changes stack significance i r c)
          (fun i => omnibus_stat stack i r c) :=
  pixelOf_fold (List.range' 1 (stack.length - 1)) _ _ initMaps r c

/-- The ratio test at one pixel is the per-pixel fold of its flags. -/
theorem ratio_pixel (stack : List (Grid ℝ)) (r c : ℕ) :
    pixelOf (ratio_test stack) r c
      = pixelFold (List.range' 1 (stack.length - 1))
          (fun i => ratio_changes stack i r c)
          (fun i => ratio_log stack i r c) :=
  pixelOf_fold (List.range' 1 (stack.length - 1)) _ _ initMaps r c

/-- The difference test at one pixel is the per-pixel fold of its flags. -/
theorem difference_pixel (stack : List (Grid ℝ)) (r c : ℕ) :
    pixelOf (difference_test stack) r c
      = pixelFold (List.range' 1 (stack.length - 1))
          (fun i => difference_changes stack i r c)
          (fun i => difference_diff stack i r c) :=
  pixelOf_fold (List.range' 1 (stack.length - 1)) _ _ initMaps r c

/-- A fold over steps at which the pixel is never flagged leaves the state. -/
theorem fold_no_flag {flag : ℕ → Prop} {mag : ℕ → ℝ} (steps : List ℕ) (s : PixelState)
    (h : ∀ i ∈ steps, ¬ flag i) : pixelFoldFrom s steps flag mag = s := by
  induction steps generalizing s with
  | nil => rfl
  | cons a t ih =>
      show pixelFoldFrom (pixelStep s a (flag a) (mag a)) t flag mag = s
      rw [pixelStep_neg (h a (List.mem_cons_self a t))]
      exact ih s (fun i hi => h i (List.mem_cons_of_mem a hi))

/-- A nonzero `first_change` value is never overwritten. -/
theorem fold_fc_nonzero {flag : ℕ → Prop} {mag : ℕ → ℝ} (steps : List ℕ) (s : PixelState)
    (hs : s.fc ≠ 0) : (pixelFoldFrom s steps flag mag).fc = s.fc := by
  induction steps generalizing s with
  | nil => rfl
  | cons a t ih =>
      show (pixelFoldFrom (pixelStep s a (flag a) (mag a)) t flag mag).fc = s.fc
      have hfc : (pixelStep s a (flag a) (mag a)).fc = s.fc := by
        show (if s.fc = 0 ∧ flag a then a % 256 else s.fc) = s.fc
        exact if_neg (fun hc => hs hc.1)
      rw [ih _ (by rw [hfc]; exact hs), hfc]

/-- Starting from sentinel 0, the fold records the earliest flagged step,
provided all step indices are nonzero and below 256. -/
theorem fold_fc_of_zero {flag : ℕ → Prop} {mag : ℕ → ℝ} (steps : List ℕ) (s : PixelState)
    (hs : s.fc = 0) (h : ∀ i ∈ steps, 0 < i ∧ i < 256) :
    (pixelFoldFrom s steps flag mag).fc = firstFlagged flag steps := by
  induction steps generalizing s with
  | nil => exact hs
  | cons a t ih =>
      obtain ⟨ha0, ha256⟩ := h a (List.mem_cons_self a t)
      have hrw : firstFlagged flag (a :: t) = if flag a then a else firstFlagged flag t := rfl
      show (pixelFoldFrom (pixelStep s a (flag a) (mag a)) t flag mag).fc
        = firstFlagged flag (a :: t)
      by_cases hf : flag a
      · have hstep : (pixelStep s a (flag a) (mag a)).fc = a := by
          rw [pixelStep_pos hf]
          show (if s.fc = 0 then a % 256 else s.fc) = a
          rw [if_pos hs]
          exact Nat.mod_eq_of_lt ha256
        rw [fold_fc_nonzero t _ (by rw [hstep]; omega), hstep, hrw, if_pos hf]
      · rw [pixelStep_neg hf, hrw, if_neg hf]
        exact ih s hs (fun i hi => h i (List.mem_cons_of_mem a hi))

/-- The frequency accumulates the number of flagged steps modulo 256. -/
theorem fold_freq {flag : ℕ → Prop} {mag : ℕ → ℝ} (steps : List ℕ) (s : PixelState)
    (hs : s.freq < 256) :
    (pixelFoldFrom s steps flag mag).freq = (s.freq + countFlagged flag steps) % 256 := by
  induction steps generalizing s with
  | nil => show s.freq = (s.freq + 0) % 256; rw [Nat.add_zero, Nat.mod_eq_of_lt hs]
  | cons a t ih =>
      show (pixelFoldFrom (pixelStep s a (flag a) (mag a)) t flag mag).freq = _
      by_cases hf : flag a
      · have h1 : (pixelStep s a (flag a) (mag a)).freq = (s.freq + 1) % 256 := by
          rw [pixelStep_pos hf]
        have hcf : countFlagged flag (a :: t) = 1 + countFlagged flag t := by
          show (if flag a then 1 else 0) + countFlagged flag t = _
          rw [if_pos hf]
        rw [ih _ (by rw [h1]; exact Nat.mod_lt _ (by norm_num)), h1, hcf]
        omega
      · have hcf : countFlagged flag (a :: t) = countFlagged flag t := by
          show (if flag a then 1 else 0) + countFlagged flag t = _
          rw [if_neg hf, Nat.zero_add]
        rw [pixelStep_neg hf, hcf]
        exact ih s hs

/-- The count of flagged steps is at most the number of steps. -/
theorem countFlagged_le_length (flag : ℕ → Prop) (steps : List ℕ) :
    countFlagged flag steps ≤ steps.length := by
  induction steps with
  | nil => exact Nat.le_refl 0
  | cons a t ih =>
      show (if flag a then 1 else 0) + countFlagged flag t ≤ t.length + 1
      by_cases hf : flag a
      · rw [if_pos hf]; omega
      · rw [if_neg hf]; omega

/-- When every step is flagged, the count is the number of steps. -/
theorem countFlagged_all (flag : ℕ → Prop) (steps : List ℕ) (h : ∀ i ∈ steps, flag i) :
    countFlagged flag steps = steps.length := by
  induction steps with
  | nil => rfl
  | cons a t ih =>
      show (if flag a then 1 else 0) + countFlagged flag t = t.length + 1
      rw [if_pos (h a (List.mem_cons_self a t)),
        ih (fun i hi => h i (List.mem_cons_of_mem a hi))]
      omega

/-- The recorded first-change value never exceeds a bound dominating all
written step indices. -/
theorem fold_fc_le {flag : ℕ → Prop} {mag : ℕ → ℝ} (steps : List ℕ) (B : ℕ) (s : PixelState)
    (hs : s.fc ≤ B) (h : ∀ i ∈ steps, i % 256 ≤ B) :
    (pixelFoldFrom s steps flag mag).fc ≤ B := by
  induction steps generalizing s with
  | nil => exact hs
  | cons a t ih =>
      show (pixelFoldFrom (pixelStep s a (flag a) (mag a)) t flag mag).fc ≤ B
      refine ih _ ?_ (fun i hi => h i (List.mem_cons_of_mem a hi))
      show (if s.fc = 0 ∧ flag a then a % 256 else s.fc) ≤ B
      by_cases hc : s.fc = 0 ∧ flag a
      · rw [if_pos hc]; exact h a (List.mem_cons_self a t)
      · rw [if_neg hc]; exact hs

/-- The first-change value always stays below 256 (uint8 storage). -/
theorem fold_fc_lt {flag : ℕ → Prop} {mag : ℕ → ℝ} (steps : List ℕ) (s : PixelState)
    (hs : s.fc < 256) : (pixelFoldFrom s steps flag mag).fc < 256 := by
  induction steps generalizing s with
  | nil => exact hs
  | cons a t ih =>
      show (pixelFoldFrom (pixelStep s a (flag a) (mag a)) t flag mag).fc < 256
      refine ih _ ?_
      show (if s.fc = 0 ∧ flag a then a % 256 else s.fc) < 256
      by_cases hc : s.fc = 0 ∧ flag a
      · rw [if_pos hc]; exact Nat.mod_lt _ (by norm_num)
      · rw [if_neg hc]; exact hs

/-- The frequency value always stays below 256 (uint8 storage). -/
theorem fold_freq_lt {flag : ℕ → Prop} {mag : ℕ → ℝ} (steps : List ℕ) (s : PixelState)
    (hs : s.freq < 256) : (pixelFoldFrom s steps flag mag).freq < 256 := by
  induction steps generalizing s with
  | nil => exact hs
  | cons a t ih =>
      show (pixelFoldFrom (pixelStep s a (flag a) (mag a)) t flag mag).freq < 256
      refine ih _ ?_
      show (if flag a then (s.freq + 1) % 256 else s.freq) < 256
      by_cases hc : flag a
      · rw [if_pos hc]; exact Nat.mod_lt _ (by norm_num)
      · rw [if_neg hc]; exact hs

/-- The earliest flagged step is the sentinel 0 exactly when no step is
flagged, provided all step indices are positive. -/
theorem firstFlagged_zero_iff (flag : ℕ → Prop) (steps : List ℕ)
    (h : ∀ i ∈ steps, 0 < i) :
    (firstFlagged flag steps = 0 ↔ ∀ i ∈ steps, ¬ flag i) := by
  induction steps with
  | nil => simp [firstFlagged]
  | cons a t ih =>
      have ha := h a (List.mem_cons_self a t)
      have hrw : firstFlagged flag (a :: t) = if flag a then a else firstFlagged flag t := rfl
      by_cases hf : flag a
      · rw [hrw, if_pos hf]
        constructor
        · intro h0; exact absurd h0 (by omega)
        · intro hall; exact absurd hf (hall a (List.mem_cons_self a t))
      · rw [hrw, if_neg hf, ih (fun i hi => h i (List.mem_cons_of_mem a hi)),
          List.forall_mem_cons]
        simp [hf]

/-- Monotonicity of the recorded magnitude along the fold. -/
theorem fold_mag_mono {flag : ℕ → Prop} {mag : ℕ → ℝ} (steps : List ℕ) (s : PixelState) :
    s.mag ≤ (pixelFoldFrom s steps flag mag).mag := by
  induction steps generalizing s with
  | nil => exact le_refl _
  | cons a t ih =>
      show s.mag ≤ (pixelFoldFrom (pixelStep s a (flag a) (mag a)) t flag mag).mag
      refine le_trans ?_ (ih _)
      show s.mag ≤ (if flag a then max s.mag (mag a) else s.mag)
      by_cases hf : flag a
      · rw [if_pos hf]; exact le_max_left _ _
      · rw [if_neg hf]

/-- Every flagged magnitude is dominated by the final recorded magnitude. -/
theorem fold_mag_flagged_le {flag : ℕ → Prop} {mag : ℕ → ℝ} (steps : List ℕ)
    (s : PixelState) : ∀ i ∈ steps, flag i → mag i ≤ (pixelFoldFrom s steps flag mag).mag := by
  induction steps generalizing s with
  | nil => intro i hi; cases hi
  | cons a t ih =>
      intro i hi hfi
      rcases List.mem_cons.mp hi with rfl | hit
      · show mag i ≤ (pixelFoldFrom (pixelStep s i (flag i) (mag i)) t flag mag).mag
        refine le_trans ?_ (fold_mag_mono t _)
        show mag i ≤ (if flag i then max s.mag (mag i) else s.mag)
        rw [if_pos hfi]
        exact le_max_right _ _
      · exact ih (pixelStep s a (flag a) (mag a)) i hit hfi

/-- The final recorded magnitude is either the starting one or one of the
flagged magnitudes. -/
theorem fold_mag_cases {flag : ℕ → Prop} {mag : ℕ → ℝ} (steps : List ℕ) (s : PixelState) :
    (pixelFoldFrom s steps flag mag).mag = s.mag
      ∨ ∃ i ∈ steps, flag i ∧ (pixelFoldFrom s steps flag mag).mag = mag i := by
  induction steps generalizing s with
  | nil => exact Or.inl rfl
  | cons a t ih =>
      have hunfold : pixelFoldFrom s (a :: t) flag mag
          = pixelFoldFrom (pixelStep s a (flag a) (mag a)) t flag mag := rfl
      rw [hunfold]
      by_cases hf : flag a
      · have hstep : (pixelStep s a (flag a) (mag a)).mag = max s.mag (mag a) := by
          rw [pixelStep_pos hf]
        rcases ih (pixelStep s a (flag a) (mag a)) with h1 | ⟨i, hi, hfi, he⟩
        · rw [h1, hstep]
          rcases max_choice s.mag (mag a) with h2 | h2
          · exact Or.inl h2
          · exact Or.inr ⟨a, List.mem_cons_self a t, hf, h2⟩
        · exact Or.inr ⟨i, List.mem_cons_of_mem a hi, hfi, he⟩
      · rw [pixelStep_neg hf]
        rcases ih s with h1 | ⟨i, hi, hfi, he⟩
        · exact Or.inl h1
        · exact Or.inr ⟨i, List.mem_cons_of_mem a hi, hfi, he⟩

/-- Folds over flags and magnitudes that agree on the steps are equal. -/
theorem pixelFoldFrom_congr {f g : ℕ → Prop} {mf mg : ℕ → ℝ} (steps : List ℕ)
    (s : PixelState) (hf : ∀ i ∈ steps, (f i ↔ g i)) (hm : ∀ i ∈ steps, mf i = mg i) :
    pixelFoldFrom s steps f mf = pixelFoldFrom s steps g mg := by
  induction steps generalizing s with
  | nil => rfl
  | cons a t ih =>
      show pixelFoldFrom (pixelStep s a (f a) (mf a)) t f mf
        = pixelFoldFrom (pixelStep s a (g a) (mg a)) t g mg
      rw [pixelStep_congr s a (hf a (List.mem_cons_self a t)) (hm a (List.mem_cons_self a t))]
      exact ih _ (fun i hi => hf i (List.mem_cons_of_mem a hi))
        (fun i hi => hm i (List.mem_cons_of_mem a hi))

/-- Unfolding the per-pixel fold over a cons cell. -/
theorem pixelFoldFrom_cons (s : PixelState) (a : ℕ) (t : List ℕ) (flag : ℕ → Prop)
    (mag : ℕ → ℝ) :
    pixelFoldFrom s (a :: t) flag mag
      = pixelFoldFrom (pixelStep s a (flag a) (mag a)) t flag mag := rfl

/-- Unfolding the per-pixel fold over the empty list. -/
theorem pixelFoldFrom_nil (s : PixelState) (flag : ℕ → Prop) (mag : ℕ → ℝ) :
    pixelFoldFrom s [] flag mag = s := rfl

/-- The sum of a mapped prefix of a list as a sum over indices. -/
theorem sum_map_take {α : Type} (l : List α) (f : α → ℝ) (d : α) :
    ∀ n, n ≤ l.length →
      ((l.take n).map f).sum = ∑ j in Finset.range n, f (l.getD j d) := by
  intro n
  induction n with
  | zero => intro _; simp
  | succ m ih =>
      intro h
      have hm : m < l.length := by omega
      have hsome : l[m]? = some l[m] := List.getElem?_eq_getElem hm
      rw [List.take_succ, hsome, List.map_append, List.sum_append, ih (by omega),
        Finset.sum_range_succ, List.getD_eq_getElem l d hm]
      simp

/-- Dropping the last element of a prefix shortens the prefix by one. -/
theorem dropLast_take {α : Type} (l : List α) (i : ℕ) (h : i + 1 ≤ l.length) :
    (l.take (i + 1)).dropLast = l.take i := by
  rw [List.dropLast_eq_take, List.length_take, List.take_take]
  congr 1
  omega

/-- `mean_all` at step `i` is the mean of the grid values at times 0..i. -/
theorem omnibus_mean_all_eq (stack : List (Grid ℝ)) (i r c : ℕ)
    (h : i + 1 ≤ stack.length) :
    omnibus_mean_all stack i r c
      = (∑ j in Finset.range (i + 1), stack.getD j gzero r c) / ((i : ℝ) + 1) := by
  unfold omnibus_mean_all gridMean
  rw [sum_map_take stack (fun g => g r c) gzero (i + 1) h, List.length_take]
  have hmin : (i + 1) ⊓ stack.length = i + 1 := by omega
  rw [hmin]
  push_cast
  rfl

/-- `mean_prev` at step `i` is the mean of the grid values at times 0..i-1. -/
theorem omnibus_mean_prev_eq (stack : List (Grid ℝ)) (i r c : ℕ)
    (h : i + 1 ≤ stack.length) :
    omnibus_mean_prev stack i r c
      = (∑ j in Finset.range i, stack.getD j gzero r c) / (i : ℝ) := by
  unfold omnibus_mean_prev gridMean
  rw [dropLast_take stack i h, sum_map_take stack (fun g => g r c) gzero i (by omega),
    List.length_take]
  have hmin : i ⊓ stack.length = i := by omega
  rw [hmin]

/-- Claim C3: at every step `i = 1..T-1` the omnibus test compares the
cumulative mean of grids `0..i` against the cumulative mean of grids
`0..i-1`, uses the statistic `-2 * L * ln(mean_all / mean_prev)` with
`L = n_looks = 5`, and flags a pixel exactly when the statistic exceeds the
chi-squared quantile with 2 degrees of freedom at `1 - significance`
(which depends only on the significance, hence is the same at every step
of a call and equals `-2 * ln significance`). -/
theorem omnibus_algorithm_spec (stack : List (Grid ℝ)) (significance : ℝ) (r c : ℕ) :
    (pixelOf (omnibus_test stack significance) r c
      = pixelFold (List.range' 1 (stack.length - 1))
          (fun i => -2 * (n_looks : ℝ) *
              Real.log (((∑ j in Finset.range (i + 1), stack.getD j gzero r c) / ((i : ℝ) + 1))
                / ((∑ j in Finset.range i, stack.getD j gzero r c) / (i : ℝ)))
              > chi2_ppf_df2 (1 - significance))
          (fun i => -2 * (n_looks : ℝ) *
              Real.log (((∑ j in Finset.range (i + 1), stack.getD j gzero r c) / ((i : ℝ) + 1))
                / ((∑ j in Finset.range i, stack.getD j gzero r c) / (i : ℝ)))))
      ∧ chi2_ppf_df2 (1 - significance) = -2 * Real.log significance := by
  constructor
  · rw [omnibus_pixel]
    unfold pixelFold
    apply pixelFoldFrom_congr
    · intro i hi
      have hmem := List.mem_range'_1.mp hi
      have h1 : i + 1 ≤ stack.length := by omega
      unfold omnibus_changes omnibus_stat
      rw [omnibus_mean_all_eq stack i r c h1, omnibus_mean_prev_eq stack i r c h1]
    · intro i hi
      have hmem := List.mem_range'_1.mp hi
      have h1 : i + 1 ≤ stack.length := by omega
      unfold omnibus_stat
      rw [omnibus_mean_all_eq stack i r c h1, omnibus_mean_prev_eq stack i r c h1]
  · unfold chi2_ppf_df2
    have h : 1 - (1 - significance) = significance := by ring
    rw [h]

/-- A ratio of 1 before the epsilon guard is never flagged by the ratio test. -/
theorem one_ratio_not_flagged :
    ¬ ((1 : ℝ) / (1 + guard_eps) > ratio_threshold
        ∨ (1 : ℝ) / (1 + guard_eps) < 1 / ratio_threshold) := by
  unfold guard_eps ratio_threshold
  rw [not_or]
  constructor <;> norm_num

/-- A jump from 1 to 2.5 crosses the upper ratio threshold. -/
theorem ratio_2p5_flagged : (2.5 : ℝ) / (1 + guard_eps) > ratio_threshold := by
  unfold guard_eps ratio_threshold
  norm_num

/-- Two consecutive values 2.5 are not flagged by the ratio test. -/
theorem ratio_2p5_over_2p5_not_flagged :
    ¬ ((2.5 : ℝ) / (2.5 + guard_eps) > ratio_threshold
        ∨ (2.5 : ℝ) / (2.5 + guard_eps) < 1 / ratio_threshold) := by
  unfold guard_eps ratio_threshold
  rw [not_or]
  constructor <;> norm_num

/-- A jump from 1 to 10 crosses the upper ratio threshold. -/
theorem ratio_10_over_1_flagged : (10 : ℝ) / (1 + guard_eps) > ratio_threshold := by
  unfold guard_eps ratio_threshold
  norm_num

/-- Two consecutive values 10 are not flagged by the ratio test. -/
theorem ratio_10_over_10_not_flagged :
    ¬ ((10 : ℝ) / (10 + guard_eps) > ratio_threshold
        ∨ (10 : ℝ) / (10 + guard_eps) < 1 / ratio_threshold) := by
  unfold guard_eps ratio_threshold
  rw [not_or]
  constructor <;> norm_num

/-- A drop from 10 to 1 crosses the lower ratio threshold. -/
theorem ratio_1_over_10_flagged : (1 : ℝ) / (10 + guard_eps) < 1 / ratio_threshold := by
  unfold guard_eps ratio_threshold
  norm_num

/-- The Scenario A grids away from pixel (10, 10) are constant 1. -/
theorem gA_other (j r c : ℕ) (h : ¬ (r = 10 ∧ c = 10)) : gA j r c = 1 := by
  unfold gA
  rw [if_neg]
  tauto

/-- Scenario A, step 1 at pixel (10, 10): not flagged. -/
theorem scenA_flag1 : ¬ ratio_changes scenarioA 1 10 10 := by
  unfold ratio_changes ratio_grid
  have h1 : scenarioA.getD 1 gzero 10 10 = 1 := by show gA 1 10 10 = 1; simp [gA]
  have h0 : scenarioA.getD 0 gzero 10 10 = 1 := by show gA 0 10 10 = 1; simp [gA]
  rw [show (1 : ℕ) - 1 = 0 from rfl, h1, h0]
  exact one_ratio_not_flagged

/-- Scenario A, step 2 at pixel (10, 10): not flagged. -/
theorem scenA_flag2 : ¬ ratio_changes scenarioA 2 10 10 := by
  unfold ratio_changes ratio_grid
  have h2 : scenarioA.getD 2 gzero 10 10 = 1 := by show gA 2 10 10 = 1; simp [gA]
  have h1 : scenarioA.getD 1 gzero 10 10 = 1 := by show gA 1 10 10 = 1; simp [gA]
  rw [show (2 : ℕ) - 1 = 1 from rfl, h2, h1]
  exact one_ratio_not_flagged

/-- Scenario A, step 3 at pixel (10, 10): flagged (jump 1 to 2.5). -/
theorem scenA_flag3 : ratio_changes scenarioA 3 10 10 := by
  unfold ratio_changes ratio_grid
  have h3 : scenarioA.getD 3 gzero 10 10 = 2.5 := by show gA 3 10 10 = 2.5; simp [gA]
  have h2 : scenarioA.getD 2 gzero 10 10 = 1 := by show gA 2 10 10 = 1; simp [gA]
  rw [show (3 : ℕ) - 1 = 2 from rfl, h3, h2]
  exact Or.inl ratio_2p5_flagged

/-- Scenario A, step 4 at pixel (10, 10): not flagged (2.5 stays 2.5). -/
theorem scenA_flag4 : ¬ ratio_changes scenarioA 4 10 10 := by
  unfold ratio_changes ratio_grid
  have h4 : scenarioA.getD 4 gzero 10 10 = 2.5 := by show gA 4 10 10 = 2.5; simp [gA]
  have h3 : scenarioA.getD 3 gzero 10 10 = 2.5 := by show gA 3 10 10 = 2.5; simp [gA]
  rw [show (4 : ℕ) - 1 = 3 from rfl, h4, h3]
  exact ratio_2p5_over_2p5_not_flagged

/-- Scenario A never flags any pixel other than (10, 10). -/
theorem scenA_other_not_flagged (r c : ℕ) (h : ¬ (r = 10 ∧ c = 10)) (i : ℕ)
    (hi : i ∈ List.range' 1 4) : ¬ ratio_changes scenarioA i r c := by
  have hmem := List.mem_range'_1.mp hi
  have hv : ∀ j : ℕ, j ≤ 4 → scenarioA.getD j gzero r c = 1 := by
    intro j hj
    interval_cases j <;> exact gA_other _ r c h
  unfold ratio_changes ratio_grid
  rw [hv i (by omega), hv (i - 1) (by omega)]
  exact one_ratio_not_flagged

/-- The full evaluation of the ratio test on Scenario A at pixel (10, 10). -/
theorem scenA_at :
    pixelOf (ratio_test scenarioA) 10 10 = ⟨3, 1, max 0 (ratio_log scenarioA 3 10 10)⟩ := by
  rw [ratio_pixel scenarioA 10 10]
  show pixelFold [1, 2, 3, 4] _ _ = _
  unfold pixelFold
  rw [pixelFoldFrom_cons, pixelStep_neg scenA_flag1,
    pixelFoldFrom_cons, pixelStep_neg scenA_flag2,
    pixelFoldFrom_cons, pixelStep_pos scenA_flag3,
    pixelFoldFrom_cons, pixelStep_neg scenA_flag4,
    pixelFoldFrom_nil]
  norm_num

/-- The ratio test on Scenario A leaves every other pixel untouched. -/
theorem scenA_at_other (r c : ℕ) (h : ¬ (r = 10 ∧ c = 10)) :
    pixelOf (ratio_test scenarioA) r c = ⟨0, 0, 0⟩ := by
  rw [ratio_pixel scenarioA r c]
  unfold pixelFold
  exact fold_no_flag _ _ (fun i hi => scenA_other_not_flagged r c h i hi)

/-- C2 counterexample: on the Scenario A stack the ratio test flags pixel
(10, 10) only at step 3 (at step 4 the consecutive ratio is 2.5/2.5, inside
the thresholds), so `change_frequency` at (10, 10) is 1, not 2 as claimed. -/
theorem ratio_scenarioA_frequency_ne_two :
    (ratio_test scenarioA).change_frequency 10 10 = 1
      ∧ (ratio_test scenarioA).change_frequency 10 10 ≠ 2 := by
  have hfreq : (ratio_test scenarioA).change_frequency 10 10 = 1 :=
    congrArg PixelState.freq scenA_at
  exact ⟨hfreq, by rw [hfreq]; norm_num⟩

/-- Claim C2 (amended): on the Scenario A stack with the hard-coded
threshold 1.5, `first_change[10,10] = 3` and `change_frequency[10,10] = 1`
(only step 3 is flagged); every other pixel has `first_change = 0` and
`change_frequency = 0`. -/
theorem ratio_scenarioA_result :
    (ratio_test scenarioA).first_change 10 10 = 3
      ∧ (ratio_test scenarioA).change_frequency 10 10 = 1
      ∧ ∀ r c : ℕ, ¬ (r = 10 ∧ c = 10) →
          (ratio_test scenarioA).first_change r c = 0
            ∧ (ratio_test scenarioA).change_frequency r c = 0 := by
  refine ⟨congrArg PixelState.fc scenA_at, congrArg PixelState.freq scenA_at, ?_⟩
  intro r c h
  exact ⟨congrArg PixelState.fc (scenA_at_other r c h),
    congrArg PixelState.freq (scenA_at_other r c h)⟩

/-- Witness for the amended Claim C2 at the concrete pixel (0, 0). -/
theorem ratio_scenarioA_result_witness :
    ¬ ((0 : ℕ) = 10 ∧ (0 : ℕ) = 10) ∧ (ratio_test scenarioA).first_change 0 0 = 0 :=
  ⟨by decide, (ratio_scenarioA_result.2.2 0 0 (by decide)).1⟩

/-- `mean_all` for the jump stack at the jumped pixel: (1 + 0) / 2. -/
theorem jump_mean_all00 : omnibus_mean_all jumpStack 1 0 0 = 1 / 2 := by
  show ((([gJump0, gJump1] : List (Grid ℝ)).map (fun g => g 0 0)).sum)
      / ((([gJump0, gJump1] : List (Grid ℝ)).length : ℕ) : ℝ) = 1 / 2
  simp [gJump0, gJump1]

/-- `mean_prev` for the jump stack at the jumped pixel: 1 / 1. -/
theorem jump_mean_prev00 : omnibus_mean_prev jumpStack 1 0 0 = 1 := by
  show ((([gJump0] : List (Grid ℝ)).map (fun g => g 0 0)).sum)
      / ((([gJump0] : List (Grid ℝ)).length : ℕ) : ℝ) = 1
  simp [gJump0]

/-- `mean_all` for the jump stack at a constant pixel: (1 + 1) / 2. -/
theorem jump_mean_all11 : omnibus_mean_all jumpStack 1 1 1 = 1 := by
  show ((([gJump0, gJump1] : List (Grid ℝ)).map (fun g => g 1 1)).sum)
      / ((([gJump0, gJump1] : List (Grid ℝ)).length : ℕ) : ℝ) = 1
  simp [gJump0, gJump1]

/-- `mean_prev` for the jump stack at a constant pixel: 1 / 1. -/
theorem jump_mean_prev11 : omnibus_mean_prev jumpStack 1 1 1 = 1 := by
  show ((([gJump0] : List (Grid ℝ)).map (fun g => g 1 1)).sum)
      / ((([gJump0] : List (Grid ℝ)).length : ℕ) : ℝ) = 1
  simp [gJump0]

/-- The key numeric bound: `10 ln 2 < 2 ln 100` (i.e. 1024 < 10000). -/
theorem ten_log_two_lt : 10 * Real.log 2 < 2 * Real.log 100 := by
  have h1 : Real.log ((2 : ℝ) ^ (10 : ℕ)) < Real.log ((100 : ℝ) ^ (2 : ℕ)) := by
    apply Real.log_lt_log (by positivity)
    norm_num
  rw [Real.log_pow, Real.log_pow] at h1
  push_cast at h1
  linarith

/-- The chi-squared critical value at significance 1/100 is `2 ln 100`. -/
theorem crit_at_001 : chi2_ppf_df2 (1 - 1 / 100) = 2 * Real.log 100 := by
  unfold chi2_ppf_df2
  have h : (1 : ℝ) - (1 - 1 / 100) = 1 / 100 := by ring
  rw [h, show (1 : ℝ) / 100 = (100 : ℝ)⁻¹ by norm_num, Real.log_inv]
  ring

/-- The jumped pixel is not flagged: its statistic `10 ln 2` is below the
critical value `2 ln 100`, the largest the statistic can ever get for
nonnegative intensities. -/
theorem jump_not_flagged00 : ¬ omnibus_changes jumpStack (1 / 100) 1 0 0 := by
  unfold omnibus_changes
  rw [crit_at_001]
  unfold omnibus_stat
  rw [jump_mean_all00, jump_mean_prev00]
  rw [show (1 : ℝ) / 2 / 1 = (2 : ℝ)⁻¹ by norm_num, Real.log_inv]
  intro hcon
  have h5 : ((n_looks : ℕ) : ℝ) = 5 := by norm_num [n_looks]
  rw [h5] at hcon
  have hb := ten_log_two_lt
  linarith

/-- A constant pixel of the jump stack is not flagged: its statistic is 0. -/
theorem jump_not_flagged11 : ¬ omnibus_changes jumpStack (1 / 100) 1 1 1 := by
  unfold omnibus_changes
  rw [crit_at_001]
  unfold omnibus_stat
  rw [jump_mean_all11, jump_mean_prev11]
  rw [show (1 : ℝ) / 1 = 1 by norm_num, Real.log_one, mul_zero]
  intro hcon
  have := Real.log_pos (show (1 : ℝ) < 100 by norm_num)
  linarith

/-- Claim C1 (code bug): on a stack whose pixel (0, 0) jumps
discontinuously from 1 to 0 at step 1 while all other pixels stay constant,
the omnibus test at significance 0.01 flags nothing at all: the jumped
pixel keeps `first_change = 0`, `change_frequency = 0` and
`change_magnitude = 0`, and so do the constant pixels. -/
theorem omnibus_jump_never_flagged :
    (omnibus_test jumpStack (1 / 100)).first_change 0 0 = 0
      ∧ (omnibus_test jumpStack (1 / 100)).change_frequency 0 0 = 0
      ∧ (omnibus_test jumpStack (1 / 100)).change_magnitude 0 0 = 0
      ∧ (omnibus_test jumpStack (1 / 100)).change_magnitude 1 1 = 0 := by
  have h00 : pixelOf (omnibus_test jumpStack (1 / 100)) 0 0 = ⟨0, 0, 0⟩ := by
    rw [omnibus_pixel]
    show pixelFold [1] _ _ = _
    unfold pixelFold
    rw [pixelFoldFrom_cons, pixelStep_neg jump_not_flagged00, pixelFoldFrom_nil]
  have h11 : pixelOf (omnibus_test jumpStack (1 / 100)) 1 1 = ⟨0, 0, 0⟩ := by
    rw [omnibus_pixel]
    show pixelFold [1] _ _ = _
    unfold pixelFold
    rw [pixelFoldFrom_cons, pixelStep_neg jump_not_flagged11, pixelFoldFrom_nil]
  exact ⟨congrArg PixelState.fc h00, congrArg PixelState.freq h00,
    congrArg PixelState.mag h00, congrArg PixelState.mag h11⟩

/-- C5 counterexample: `detect_changes` on a single-image stack does not
raise; it returns the all-zero change maps. -/
theorem detect_changes_single_image_ok :
    detect_changes [gJump0] "omnibus" (1 / 100) = Except.ok initMaps := rfl

/-- Claim C5 (amended): a stack with T = 1 raises no error under any of the
three methods; the per-step loop body never runs, so the all-zero maps are
returned. -/
theorem detect_changes_single_image_returns_zero_maps (g : Grid ℝ) (significance : ℝ) :
    detect_changes [g] "omnibus" significance = Except.ok initMaps
      ∧ detect_changes [g] "ratio" significance = Except.ok initMaps
      ∧ detect_changes [g] "difference" significance = Except.ok initMaps :=
  ⟨rfl, rfl, rfl⟩

/-- C6 counterexample: with an unknown method the stacking operation
precedes the raise, so the error is not raised before grids are touched. -/
theorem bogus_method_after_stack_trace :
    detect_changes_trace 2 false "bogus" = [Op.stackImages, Op.raiseUnknown "bogus"] := rfl

/-- Claim C6 (amended): an unknown method string raises the unknown-method
error (no silent fallback), but only after loading (when paths are given)
and stacking; the raise is the last operation of the trace, after
`Op.stackImages`. -/
theorem unknown_method_error_after_stacking (method : String)
    (h1 : method ≠ "omnibus") (h2 : method ≠ "ratio") (h3 : method ≠ "difference")
    (images : List (Grid ℝ)) (significance : ℝ) :
    detect_changes images method significance
        = Except.error (DetectError.unknownMethod method)
      ∧ ∀ (n : ℕ) (b : Bool), detect_changes_trace n b method
          = (if b then (List.range n).map Op.loadImage else [])
              ++ [Op.stackImages, Op.raiseUnknown method] := by
  constructor
  · unfold detect_changes
    rw [if_neg h1, if_neg h2, if_neg h3]
  · intro n b
    unfold detect_changes_trace
    have hc : ¬ (method = "omnibus" ∨ method = "ratio" ∨ method = "difference") := by
      push_neg
      exact ⟨h1, h2, h3⟩
    rw [if_neg hc]
    simp

/-- Witness for the amended Claim C6 at the concrete method "bogus". -/
theorem unknown_method_error_after_stacking_witness :
    (("bogus" : String) ≠ "omnibus" ∧ ("bogus" : String) ≠ "ratio"
        ∧ ("bogus" : String) ≠ "difference")
      ∧ detect_changes [gJump0] "bogus" (1 / 100)
          = Except.error (DetectError.unknownMethod "bogus") :=
  ⟨⟨by decide, by decide, by decide⟩,
    (unknown_method_error_after_stacking "bogus" (by decide) (by decide) (by decide)
      [gJump0] (1 / 100)).1⟩

/-- Claim C9: in exact real arithmetic the dB/linear round trip returns
`x + 1e-10` exactly, hence is within `1e-10` of `x` for every positive `x`. -/
theorem db_linear_roundtrip (x : ℝ) (hx : 0 < x) :
    db_to_linear (linear_to_db x) = x + guard_eps
      ∧ |db_to_linear (linear_to_db x) - x| ≤ 1e-10 := by
  have heps : (0 : ℝ) < guard_eps := by unfold guard_eps; norm_num
  have hpos : 0 < x + guard_eps := by linarith
  have hrt : db_to_linear (linear_to_db x) = x + guard_eps := by
    unfold db_to_linear linear_to_db
    have hdiv : 10 * Real.logb 10 (x + guard_eps) / 10 = Real.logb 10 (x + guard_eps) := by
      ring
    rw [hdiv]
    exact Real.rpow_logb (by norm_num) (by norm_num) hpos
  refine ⟨hrt, ?_⟩
  rw [hrt, show x + guard_eps - x = guard_eps by ring, abs_of_pos heps]
  unfold guard_eps
  exact le_refl _

/-- Witness for Claim C9 at x = 1. -/
theorem db_linear_roundtrip_witness :
    (0 : ℝ) < 1 ∧ |db_to_linear (linear_to_db 1) - 1| ≤ 1e-10 :=
  ⟨by norm_num, (db_linear_roundtrip 1 (by norm_num)).2⟩

/-- Indexing into a stack built by mapping over a range. -/
theorem getD_range_map (f : ℕ → Grid ℝ) (n i : ℕ) (h : i < n) :
    ((List.range n).map f).getD i gzero = f i := by
  have hl : i < ((List.range n).map f).length := by simp [h]
  rw [List.getD_eq_getElem _ _ hl, List.getElem_map, List.getElem_range]

/-- The value of the 258-grid stack at any pixel. -/
theorem stack258_val (j : ℕ) (h : j < 258) (r c : ℕ) :
    stack258.getD j gzero r c = if j ≤ 255 then (1 : ℝ) else 10 := by
  unfold stack258
  rw [getD_range_map _ 258 j h]

/-- The 258-grid stack is not flagged at steps 1..255 (constant value 1). -/
theorem stack258_not_flagged (i : ℕ) (h1 : 1 ≤ i) (h2 : i ≤ 255) :
    ¬ ratio_changes stack258 i 0 0 := by
  unfold ratio_changes ratio_grid
  rw [stack258_val i (by omega) 0 0, stack258_val (i - 1) (by omega) 0 0,
    if_pos (show i ≤ 255 by omega), if_pos (show i - 1 ≤ 255 by omega)]
  exact one_ratio_not_flagged

/-- The 258-grid stack is flagged at step 256 (jump 1 to 10). -/
theorem stack258_flagged256 : ratio_changes stack258 256 0 0 := by
  unfold ratio_changes ratio_grid
  rw [show (256 : ℕ) - 1 = 255 from rfl, stack258_val 256 (by omega) 0 0,
    stack258_val 255 (by omega) 0 0, if_neg (by omega), if_pos (by omega)]
  exact Or.inl ratio_10_over_1_flagged

/-- The 258-grid stack is not flagged at step 257 (10 stays 10). -/
theorem stack258_not_flagged257 : ¬ ratio_changes stack258 257 0 0 := by
  unfold ratio_changes ratio_grid
  rw [show (257 : ℕ) - 1 = 256 from rfl, stack258_val 257 (by omega) 0 0,
    stack258_val 256 (by omega) 0 0, if_neg (by omega), if_neg (by omega)]
  exact ratio_10_over_10_not_flagged

/-- Splitting the 257 step indices at step 256. -/
theorem range'_split_257 : List.range' 1 255 ++ List.range' 256 2 = List.range' 1 257 := by
  have h := List.range'_append 1 255 2 1
  norm_num at h
  exact h

/-- Splitting a fold of steps into two consecutive folds. -/
theorem pixelFoldFrom_append (s : PixelState) (l1 l2 : List ℕ) (flag : ℕ → Prop)
    (mag : ℕ → ℝ) :
    pixelFoldFrom s (l1 ++ l2) flag mag
      = pixelFoldFrom (pixelFoldFrom s l1 flag mag) l2 flag mag :=
  List.foldl_append _ _ _ _

/-- Evaluating the ratio test on the 258-grid stack: the first flagged step
is 256, whose index is stored as 256 mod 256 = 0, so `first_change` keeps
the sentinel value 0 while `change_frequency` records one flagged step. -/
theorem stack258_at :
    pixelOf (ratio_test stack258) 0 0 = ⟨0, 1, max 0 (ratio_log stack258 256 0 0)⟩ := by
  rw [ratio_pixel stack258 0 0]
  have hlen : stack258.length - 1 = 257 := by simp [stack258]
  rw [hlen]
  unfold pixelFold
  rw [← range'_split_257, pixelFoldFrom_append]
  rw [fold_no_flag (List.range' 1 255) _ (fun i hi => by
    have hm := List.mem_range'_1.mp hi
    exact stack258_not_flagged i hm.1 (by omega))]
  rw [show List.range' 256 2 = [256, 257] from rfl]
  rw [pixelFoldFrom_cons, pixelStep_pos stack258_flagged256,
    pixelFoldFrom_cons, pixelStep_neg stack258_not_flagged257, pixelFoldFrom_nil]
  norm_num

/-- C8 counterexample: on the 258-grid stack the ratio test flags pixel
(0, 0) at step 256, yet `first_change` at that pixel is the sentinel 0,
because the uint8 store records 256 mod 256 = 0. -/
theorem first_change_sentinel_ambiguous :
    (ratio_test stack258).first_change 0 0 = 0 ∧ ratio_changes stack258 256 0 0 :=
  ⟨congrArg PixelState.fc stack258_at, stack258_flagged256⟩

/-- The value of the alternating 257-grid stack at any pixel. -/
theorem altStack_val (j : ℕ) (h : j < 257) (r c : ℕ) :
    altStack.getD j gzero r c = if j % 2 = 0 then (1 : ℝ) else 10 := by
  unfold altStack
  rw [getD_range_map _ 257 j h]

/-- Every step 1..256 of the alternating stack is flagged at every pixel. -/
theorem altStack_flagged (i : ℕ) (h1 : 1 ≤ i) (h2 : i ≤ 256) :
    ratio_changes altStack i 0 0 := by
  unfold ratio_changes ratio_grid
  rw [altStack_val i (by omega) 0 0, altStack_val (i - 1) (by omega) 0 0]
  rcases Nat.even_or_odd i with he | ho
  · have hi2 : i % 2 = 0 := Nat.even_iff.mp he
    rw [if_pos hi2, if_neg (by omega)]
    exact Or.inr ratio_1_over_10_flagged
  · have hi2 : i % 2 = 1 := Nat.odd_iff.mp ho
    rw [if_neg (by omega), if_pos (by omega)]
    exact Or.inl ratio_10_over_1_flagged

/-- On the alternating 257-grid stack all 256 steps are flagged, and the
uint8 frequency counter wraps to 256 mod 256 = 0. -/
theorem altStack_freq : (ratio_test altStack).change_frequency 0 0 = 0 := by
  have hp := ratio_pixel altStack 0 0
  have hlen : altStack.length - 1 = 256 := by simp [altStack]
  rw [hlen] at hp
  have h1 : (ratio_test altStack).change_frequency 0 0
      = (pixelFoldFrom (⟨0, 0, 0⟩ : PixelState) (List.range' 1 256)
          (fun i => ratio_changes altStack i 0 0)
          (fun i => ratio_log altStack i 0 0)).freq :=
    congrArg PixelState.freq hp
  rw [h1, fold_freq _ _ (by show (0 : ℕ) < 256; norm_num)]
  have hall : ∀ i ∈ List.range' 1 256, ratio_changes altStack i 0 0 := by
    intro i hi
    have hm := List.mem_range'_1.mp hi
    exact altStack_flagged i hm.1 (by omega)
  rw [countFlagged_all _ _ hall]
  simp [List.length_range']

/-- C7 counterexample: on the alternating stack pixel (0, 0) is flagged at
step 1 (indeed at all 256 steps), yet the final `change_frequency` is 0:
the uint8 counter wrapped, so it was not incremented by exactly 1 at every
flagged step. -/
theorem frequency_wraps_at_256_flags :
    ratio_changes altStack 1 0 0 ∧ (ratio_test altStack).change_frequency 0 0 = 0 :=
  ⟨altStack_flagged 1 (by norm_num) (by norm_num), altStack_freq⟩

/-- Claim C7 (amended): in all three strategies the per-step aggregation is
the same fold, and — with the outputs stored as uint8 — for step indices
in 1..255 the fold records exactly the earliest flagged step in
`first_change`, counts exactly the flagged steps in `change_frequency`
when at most 255 steps exist, and keeps in `change_magnitude` the maximum
of the flagged magnitudes (its initial 0 when none is flagged). -/
theorem aggregation_fold_rules :
    (∀ (stack : List (Grid ℝ)) (significance : ℝ) (r c : ℕ),
        pixelOf (omnibus_test stack significance) r c
          = pixelFold (List.range' 1 (stack.length - 1))
              (fun i => omnibus_changes stack significance i r c)
              (fun i => omnibus_stat stack i r c))
      ∧ (∀ (stack : List (Grid ℝ)) (r c : ℕ),
          pixelOf (ratio_test stack) r c
            = pixelFold (List.range' 1 (stack.length - 1))
                (fun i => ratio_changes stack i r c)
                (fun i => ratio_log stack i r c))
      ∧ (∀ (stack : List (Grid ℝ)) (r c : ℕ),
          pixelOf (difference_test stack) r c
            = pixelFold (List.range' 1 (stack.length - 1))
                (fun i => difference_changes stack i r c)
                (fun i => difference_diff stack i r c))
      ∧ (∀ (steps : List ℕ) (flag : ℕ → Prop) (mag : ℕ → ℝ),
          (∀ i ∈ steps, 0 < i ∧ i < 256) →
            (pixelFold steps flag mag).fc = firstFlagged flag steps
              ∧ (steps.length ≤ 255 →
                  (pixelFold steps flag mag).freq = countFlagged flag steps)
              ∧ (∀ i ∈ steps, flag i → mag i ≤ (pixelFold steps flag mag).mag)
              ∧ ((pixelFold steps flag mag).mag = 0
                  ∨ ∃ i ∈ steps, flag i ∧ (pixelFold steps flag mag).mag = mag i)) := by
  refine ⟨omnibus_pixel, ratio_pixel, difference_pixel, ?_⟩
  intro steps flag mag h
  refine ⟨fold_fc_of_zero steps _ rfl h, ?_, fold_mag_flagged_le steps _,
    fold_mag_cases steps _⟩
  intro hlen
  have hcount := countFlagged_le_length flag steps
  have hfold := @fold_freq flag mag steps ⟨0, 0, 0⟩
    (by show (0 : ℕ) < 256; norm_num)
  rw [pixelFold, hfold]
  show (0 + countFlagged flag steps) % 256 = countFlagged flag steps
  omega

/-- Witness for the amended Claim C7 on a one-step list of flags. -/
theorem aggregation_fold_rules_witness :
    (∀ i ∈ [(1 : ℕ)], 0 < i ∧ i < 256)
      ∧ (pixelFold [(1 : ℕ)] (fun _ => True) (fun _ => 1)).fc
          = firstFlagged (fun _ => True) [(1 : ℕ)] :=
  ⟨by decide,
    (aggregation_fold_rules.2.2.2 [(1 : ℕ)] (fun _ => True) (fun _ => 1) (by decide)).1⟩

/-- Range and sentinel behaviour of the per-pixel fold over the step
indices 1..L-1. -/
theorem fold_fc_range (L : ℕ) (flag : ℕ → Prop) (mag : ℕ → ℝ) :
    (pixelFold (List.range' 1 (L - 1)) flag mag).fc ≤ L - 1
      ∧ (L ≤ 256 →
          ((pixelFold (List.range' 1 (L - 1)) flag mag).fc = 0
            ↔ ∀ i ∈ List.range' 1 (L - 1), ¬ flag i)) := by
  constructor
  · refine fold_fc_le _ _ _ (Nat.zero_le _) ?_
    intro i hi
    have hm := List.mem_range'_1.mp hi
    have hmod : i % 256 ≤ i := Nat.mod_le i 256
    omega
  · intro hL
    have hsteps : ∀ i ∈ List.range' 1 (L - 1), 0 < i ∧ i < 256 := by
      intro i hi
      have hm := List.mem_range'_1.mp hi
      omega
    rw [pixelFold, fold_fc_of_zero _ _ rfl hsteps]
    exact firstFlagged_zero_iff _ _ (fun i hi => (hsteps i hi).1)

/-- Claim C8 (amended): in each strategy `first_change` always lies in
{0, ..., T-1}; for stacks of at most 256 images `first_change = 0` holds
exactly when no step flagged the pixel, while for larger stacks a pixel
first flagged at a step divisible by 256 keeps the sentinel 0. -/
theorem first_change_range_sentinel :
    (∀ (stack : List (Grid ℝ)) (significance : ℝ) (r c : ℕ),
        (omnibus_test stack significance).first_change r c ≤ stack.length - 1
          ∧ (stack.length ≤ 256 →
              ((omnibus_test stack significance).first_change r c = 0
                ↔ ∀ i ∈ List.range' 1 (stack.length - 1),
                    ¬ omnibus_changes stack significance i r c)))
      ∧ (∀ (stack : List (Grid ℝ)) (r c : ℕ),
          (ratio_test stack).first_change r c ≤ stack.length - 1
            ∧ (stack.length ≤ 256 →
                ((ratio_test stack).first_change r c = 0
                  ↔ ∀ i ∈ List.range' 1 (stack.length - 1),
                      ¬ ratio_changes stack i r c)))
      ∧ (∀ (stack : List (Grid ℝ)) (r c : ℕ),
          (difference_test stack).first_change r c ≤ stack.length - 1
            ∧ (stack.length ≤ 256 →
                ((difference_test stack).first_change r c = 0
                  ↔ ∀ i ∈ List.range' 1 (stack.length - 1),
                      ¬ difference_changes stack i r c))) := by
  refine ⟨?_, ?_, ?_⟩
  · intro stack significance r c
    have heq : (omnibus_test stack significance).first_change r c
        = (pixelFold (List.range' 1 (stack.length - 1))
            (fun i => omnibus_changes stack significance i r c)
            (fun i => omnibus_stat stack i r c)).fc :=
      congrArg PixelState.fc (omnibus_pixel stack significance r c)
    have h := fold_fc_range stack.length
      (fun i => omnibus_changes stack significance i r c)
      (fun i => omnibus_stat stack i r c)
    rw [heq]
    exact ⟨h.1, h.2⟩
  · intro stack r c
    have heq : (ratio_test stack).first_change r c
        = (pixelFold (List.range' 1 (stack.length - 1))
            (fun i => ratio_changes stack i r c)
            (fun i => ratio_log stack i r c)).fc :=
      congrArg PixelState.fc (ratio_pixel stack r c)
    have h := fold_fc_range stack.length
      (fun i => ratio_changes stack i r c)
      (fun i => ratio_log stack i r c)
    rw [heq]
    exact ⟨h.1, h.2⟩
  · intro stack r c
    have heq : (difference_test stack).first_change r c
        = (pixelFold (List.range' 1 (stack.length - 1))
            (fun i => difference_changes stack i r c)
            (fun i => difference_diff stack i r c)).fc :=
      congrArg PixelState.fc (difference_pixel stack r c)
    have h := fold_fc_range stack.length
      (fun i => difference_changes stack i r c)
      (fun i => difference_diff stack i r c)
    rw [heq]
    exact ⟨h.1, h.2⟩

/-- Witness for the amended Claim C8 on the two-image jump stack. -/
theorem first_change_range_sentinel_witness :
    jumpStack.length ≤ 256
      ∧ ((omnibus_test jumpStack (1 / 100)).first_change 0 0 = 0
          ↔ ∀ i ∈ List.range' 1 (jumpStack.length - 1),
              ¬ omnibus_changes jumpStack (1 / 100) i 0 0) :=
  ⟨by norm_num [jumpStack],
    (first_change_range_sentinel.1 jumpStack (1 / 100) 0 0).2 (by norm_num [jumpStack])⟩

/-- Uint8 bounds for both integer maps of a per-pixel fold. -/
theorem fold_fc_freq_lt (steps : List ℕ) (flag : ℕ → Prop) (mag : ℕ → ℝ) :
    (pixelFold steps flag mag).fc < 256 ∧ (pixelFold steps flag mag).freq < 256 :=
  ⟨fold_fc_lt steps _ (by show (0 : ℕ) < 256; norm_num),
    fold_freq_lt steps _ (by show (0 : ℕ) < 256; norm_num)⟩

/-- Claim C10: `first_change` and `change_frequency` are stored as 8-bit
unsigned integers, so their values are always reduced modulo 256, in every
strategy; concretely, on the 258-grid stack whose only flagged step is 256
the pixel keeps `first_change = 0` (indistinguishable from the no-change
sentinel), and on the alternating 257-grid stack with 256 flagged steps
the counter wraps to 0. -/
theorem uint8_storage_wraparound :
    (∀ (stack : List (Grid ℝ)) (significance : ℝ) (r c : ℕ),
        (omnibus_test stack significance).first_change r c < 256
          ∧ (omnibus_test stack significance).change_frequency r c < 256)
      ∧ (∀ (stack : List (Grid ℝ)) (r c : ℕ),
          (ratio_test stack).first_change r c < 256
            ∧ (ratio_test stack).change_frequency r c < 256)
      ∧ (∀ (stack : List (Grid ℝ)) (r c : ℕ),
          (difference_test stack).first_change r c < 256
            ∧ (difference_test stack).change_frequency r c < 256)
      ∧ (ratio_changes stack258 256 0 0
          ∧ (∀ i ∈ List.range' 1 255, ¬ ratio_changes stack258 i 0 0)
          ∧ (ratio_test stack258).first_change 0 0 = 0)
      ∧ ((∀ i ∈ List.range' 1 256, ratio_changes altStack i 0 0)
          ∧ (ratio_test altStack).change_frequency 0 0 = 0) := by
  refine ⟨?_, ?_, ?_, ⟨stack258_flagged256, ?_, congrArg PixelState.fc stack258_at⟩,
    ⟨?_, altStack_freq⟩⟩
  · intro stack significance r c
    have heq : pixelOf (omnibus_test stack significance) r c
        = pixelFold (List.range' 1 (stack.length - 1))
            (fun i => omnibus_changes stack significance i r c)
            (fun i => omnibus_stat stack i r c) := omnibus_pixel stack significance r c
    have h := fold_fc_freq_lt (List.range' 1 (stack.length - 1))
      (fun i => omnibus_changes stack significance i r c)
      (fun i => omnibus_stat stack i r c)
    exact ⟨by rw [show (omnibus_test stack significance).first_change r c
          = (pixelOf (omnibus_test stack significance) r c).fc from rfl, heq]; exact h.1,
      by rw [show (omnibus_test stack significance).change_frequency r c
          = (pixelOf (omnibus_test stack significance) r c).freq from rfl, heq]; exact h.2⟩
  · intro stack r c
    have heq : pixelOf (ratio_test stack) r c
        = pixelFold (List.range' 1 (stack.length - 1))
            (fun i => ratio_changes stack i r c)
            (fun i => ratio_log stack i r c) := ratio_pixel stack r c
    have h := fold_fc_freq_lt (List.range' 1 (stack.length - 1))
      (fun i => ratio_changes stack i r c)
      (fun i => ratio_log stack i r c)
    exact ⟨by rw [show (ratio_test stack).first_change r c
          = (pixelOf (ratio_test stack) r c).fc from rfl, heq]; exact h.1,
      by rw [show (ratio_test stack).change_frequency r c
          = (pixelOf (ratio_test stack) r c).freq from rfl, heq]; exact h.2⟩
  · intro stack r c
    have heq : pixelOf (difference_test stack) r c
        = pixelFold (List.range' 1 (stack.length - 1))
            (fun i => difference_changes stack i r c)
            (fun i => difference_diff stack i r c) := difference_pixel stack r c
    have h := fold_fc_freq_lt (List.range' 1 (stack.length - 1))
      (fun i => difference_changes stack i r c)
      (fun i => difference_diff stack i r c)
    exact ⟨by rw [show (difference_test stack).first_change r c
          = (pixelOf (difference_test stack) r c).fc from rfl, heq]; exact h.1,
      by rw [show (difference_test stack).change_frequency r c
          = (pixelOf (difference_test stack) r c).freq from rfl, heq]; exact h.2⟩
  · intro i hi
    have hm := List.mem_range'_1.mp hi
    exact stack258_not_flagged i hm.1 (by omega)
  · intro i hi
    have hm := List.mem_range'_1.mp hi
    exact altStack_flagged i hm.1 (by omega)

/-- Witness for Claim C10 at a concrete pixel of the 258-grid stack. -/
theorem uint8_storage_wraparound_witness :
    (ratio_test stack258).first_change 5 7 < 256 :=
  (uint8_storage_wraparound.2.1 stack258 5 7).1

/-- The omnibus denominator on a two-image all-zero stack is exactly 0. -/
theorem omnibus_mean_prev_zero : omnibus_mean_prev [gzero, gzero] 1 0 0 = 0 := by
  show ((([gzero] : List (Grid ℝ)).map (fun g => g 0 0)).sum)
      / ((([gzero] : List (Grid ℝ)).length : ℕ) : ℝ) = 0
  simp [gzero]

/-- C4 counterexample: in the omnibus test the division `mean_all /
mean_prev` carries no additive epsilon: on an all-zero pixel its
denominator is exactly zero, which a positive additive guard (such as the
1e-10 used by the other two strategies) would rule out. -/
theorem omnibus_denominator_unguarded :
    omnibus_mean_prev [gzero, gzero] 1 0 0 = 0 ∧ (0 : ℝ) < guard_eps :=
  ⟨omnibus_mean_prev_zero, by unfold guard_eps; norm_num⟩

/-- Claim C4 (amended): the Ratio and Difference strategies guard their
denominators and dB logarithm arguments with the additive constant 1e-10,
keeping them nonzero (indeed positive) on nonnegative data, but the
Omnibus strategy applies no such guard: its denominator is `mean_prev`
itself, exactly zero on an all-zero pixel. -/
theorem epsilon_guard_inconsistent :
    (∀ (stack : List (Grid ℝ)) (i r c : ℕ),
        0 ≤ stack.getD (i - 1) gzero r c →
          stack.getD (i - 1) gzero r c + guard_eps ≠ 0
            ∧ ratio_grid stack i r c * (stack.getD (i - 1) gzero r c + guard_eps)
                = stack.getD i gzero r c)
      ∧ (∀ (stack : List (Grid ℝ)) (i r c : ℕ),
          0 ≤ stack.getD i gzero r c → 0 < stack.getD i gzero r c + guard_eps)
      ∧ omnibus_mean_prev [gzero, gzero] 1 0 0 = 0 := by
  have heps : (0 : ℝ) < guard_eps := by unfold guard_eps; norm_num
  refine ⟨?_, ?_, omnibus_mean_prev_zero⟩
  · intro stack i r c h
    have hpos : 0 < stack.getD (i - 1) gzero r c + guard_eps := by linarith
    have hne : stack.getD (i - 1) gzero r c + guard_eps ≠ 0 := ne_of_gt hpos
    refine ⟨hne, ?_⟩
    unfold ratio_grid
    exact div_mul_cancel₀ _ hne
  · intro stack i r c h
    linarith

/-- Witness for the amended Claim C4 at the all-zero two-image stack. -/
theorem epsilon_guard_inconsistent_witness :
    (0 : ℝ) ≤ [gzero, gzero].getD 0 gzero 0 0
      ∧ [gzero, gzero].getD 0 gzero 0 0 + guard_eps ≠ 0 := by
  have h0 : (0 : ℝ) ≤ [gzero, gzero].getD 0 gzero 0 0 := le_refl 0
  exact ⟨h0, (epsilon_guard_inconsistent.1 [gzero, gzero] 1 0 0 h0).1⟩

end SAR4CET
